import Mathlib

/-!
Verification of the battery-cell monitoring demo.

The repository has two Python scripts:

* `p4.py` — a Streamlit dashboard whose domain logic consists of
  `get_cell_specs` (chemistry profile lookup), `generate_cell_data`
  (synthetic reading generator) and `get_cell_status` (status classifier).
* `p2.py` — a console script that builds a simplified per-cell reading.

We embed the domain logic shallowly over ℚ.  Python's `round(x, n)` uses
round-half-to-even; we model it exactly on rationals.  The calls to
`random.uniform(a, b)` are modelled by explicit rational parameters together
with hypotheses `a ≤ x ≤ b`, matching the contract of `random.uniform`.
-/

/-- Round-half-to-even on rationals, the semantics of Python's builtin
`round` applied to an exact value. -/
def roundHalfEven (q : ℚ) : ℤ :=
  if q - ⌊q⌋ < 1/2 then ⌊q⌋
  else if 1/2 < q - ⌊q⌋ then ⌊q⌋ + 1
  else if 2 ∣ ⌊q⌋ then ⌊q⌋ else ⌊q⌋ + 1

/-- `round(q, n)` from Python: round to `n` decimal places, half to even. -/
def roundTo (n : ℕ) (q : ℚ) : ℚ :=
  (roundHalfEven (q * 10 ^ n) : ℚ) / 10 ^ n

/-- A chemistry profile entry of the `specs` dictionary in
`get_cell_specs` (`p4.py`): nominal voltage, bounds and display color. -/
structure CellSpecs where
  voltage : ℚ
  min_voltage : ℚ
  max_voltage : ℚ
  color : String
  deriving DecidableEq, Repr

/-- The `"lfp"` entry of the `specs` dictionary. -/
def lfpSpecs : CellSpecs :=
  { voltage := 3.2, min_voltage := 2.8, max_voltage := 3.6, color := "#2E8B57" }

/-- The `"nmc"` entry of the `specs` dictionary. -/
def nmcSpecs : CellSpecs :=
  { voltage := 3.6, min_voltage := 3.2, max_voltage := 4.0, color := "#4169E1" }

/-- The `"lco"` entry of the `specs` dictionary. -/
def lcoSpecs : CellSpecs :=
  { voltage := 3.7, min_voltage := 3.0, max_voltage := 4.2, color := "#FF6347" }

/-- The `"lmo"` entry of the `specs` dictionary. -/
def lmoSpecs : CellSpecs :=
  { voltage := 3.8, min_voltage := 3.2, max_voltage := 4.3, color := "#32CD32" }

/-- Python's `str.lower()` restricted to its ASCII action, which is all the
chemistry-code strings exercise.  (Defined by a structural list map so that
it reduces in proofs; core's `String.toLower` is well-founded recursion.) -/
def pyLower (s : String) : String :=
  ⟨s.data.map Char.toLower⟩

/-- `get_cell_specs` from `p4.py`:
`specs.get(cell_type.lower(), specs["nmc"])`. -/
def get_cell_specs (cell_type : String) : CellSpecs :=
  match pyLower cell_type with
  | "lfp" => lfpSpecs
  | "nmc" => nmcSpecs
  | "lco" => lcoSpecs
  | "lmo" => lmoSpecs
  | _ => nmcSpecs

/-- The dictionary returned by `generate_cell_data` in `p4.py` (and, without
the `color` field, by the loop body of `p2.py`). -/
structure CellReading where
  voltage : ℚ
  current : ℚ
  temp : ℚ
  capacity : ℚ
  min_voltage : ℚ
  max_voltage : ℚ
  color : String
  deriving DecidableEq, Repr

/-- `generate_cell_data(cell_type, cell_id)` from `p4.py`.  The three calls
to `random.uniform` are replaced by the explicit parameters
`voltage_variation` (drawn from `[-0.1, 0.1]`), `rawCurrent` (from
`[-5.0, 5.0]`) and `rawTemp` (from `[25, 45]`). -/
def generate_cell_data (cell_type : String) (cell_id : ℕ)
    (voltage_variation rawCurrent rawTemp : ℚ) : CellReading :=
  let specs := get_cell_specs cell_type
  let voltage := max specs.min_voltage
                 (min specs.max_voltage (specs.voltage + voltage_variation))
  let current := roundTo 2 rawCurrent
  let temp := roundTo 1 rawTemp
  let capacity := roundTo 2 |voltage * current|
  { voltage := roundTo 2 voltage
    current := current
    temp := temp
    capacity := capacity
    min_voltage := specs.min_voltage
    max_voltage := specs.max_voltage
    color := specs.color }

/-- `get_cell_status(cell_data)` from `p4.py`: the status string together
with the icon. -/
def get_cell_status (cell_data : CellReading) : String × String :=
  if cell_data.voltage < cell_data.min_voltage * 1.05 ∨
     cell_data.voltage > cell_data.max_voltage * 0.95 ∨
     cell_data.temp > 40 then
    ("critical", "⚠️")
  else if cell_data.voltage < cell_data.min_voltage * 1.1 ∨
          cell_data.voltage > cell_data.max_voltage * 0.9 ∨
          cell_data.temp > 35 then
    ("warning", "⚡")
  else
    ("normal", "✅")

/-- The dictionary stored per cell by the loop of `p2.py` (no color field). -/
structure P2Reading where
  voltage : ℚ
  current : ℚ
  temp : ℚ
  capacity : ℚ
  min_voltage : ℚ
  max_voltage : ℚ
  deriving DecidableEq, Repr

/-- The loop body of `p2.py` for one entered cell type.  The entries of
`list_of_cell` were lowercased at input time, so `cell_type` here is the
lowercased string; the single call `random.uniform(25, 40)` is replaced by
the parameter `rawTemp` (drawn from `[25, 40]`). -/
def p2_cell (cell_type : String) (rawTemp : ℚ) : P2Reading :=
  let voltage : ℚ := if cell_type = "lfp" then 3.2 else 3.6
  let min_voltage : ℚ := if cell_type = "lfp" then 2.8 else 3.2
  let max_voltage : ℚ := if cell_type = "lfp" then 3.6 else 4.0
  let current : ℚ := 0.0
  let temp := roundTo 1 rawTemp
  let capacity := roundTo 2 (voltage * current)
  { voltage := voltage
    current := current
    temp := temp
    capacity := capacity
    min_voltage := min_voltage
    max_voltage := max_voltage }

/-- The six data fields of a generated reading, for comparison with the
(color-less) reading built by `p2.py`. -/
def CellReading.dataFields (r : CellReading) : P2Reading :=
  { voltage := r.voltage
    current := r.current
    temp := r.temp
    capacity := r.capacity
    min_voltage := r.min_voltage
    max_voltage := r.max_voltage }

/-! ### Helper lemmas about Python-style rounding -/

lemma floor_le_roundHalfEven (q : ℚ) : ⌊q⌋ ≤ roundHalfEven q := by
  unfold roundHalfEven
  split_ifs <;> omega

lemma le_roundHalfEven_of_le (n : ℤ) (q : ℚ) (h : (n : ℚ) ≤ q) :
    n ≤ roundHalfEven q :=
  le_trans (Int.le_floor.mpr h) (floor_le_roundHalfEven q)

lemma roundHalfEven_le_of_le (n : ℤ) (q : ℚ) (h : q ≤ n) :
    roundHalfEven q ≤ n := by
  have hfl : ⌊q⌋ ≤ n := by
    have := Int.floor_le_floor h
    simpa using this
  unfold roundHalfEven
  split_ifs with h1 h2 h3
  · exact hfl
  all_goals
    have hq : (⌊q⌋ : ℚ) < q := by
      have hhalf : (1:ℚ)/2 ≤ q - ⌊q⌋ := le_of_not_lt h1
      nlinarith
  all_goals
    have hlt : ⌊q⌋ < n := by exact_mod_cast lt_of_lt_of_le hq h
  all_goals omega

lemma le_roundTo_of_le (n : ℕ) (q a : ℚ) (m : ℤ) (hm : (m : ℚ) = a * 10 ^ n)
    (h : a ≤ q) : a ≤ roundTo n q := by
  unfold roundTo
  rw [le_div_iff (by positivity)]
  have hle : (m : ℚ) ≤ q * 10 ^ n := by
    rw [hm]
    exact mul_le_mul_of_nonneg_right h (by positivity)
  have := le_roundHalfEven_of_le m (q * 10 ^ n) hle
  calc a * 10 ^ n = (m : ℚ) := hm.symm
    _ ≤ (roundHalfEven (q * 10 ^ n) : ℚ) := by exact_mod_cast this

lemma roundTo_le_of_le (n : ℕ) (q b : ℚ) (m : ℤ) (hm : (m : ℚ) = b * 10 ^ n)
    (h : q ≤ b) : roundTo n q ≤ b := by
  unfold roundTo
  rw [div_le_iff (by positivity)]
  have hle : q * 10 ^ n ≤ (m : ℚ) := by
    rw [hm]
    exact mul_le_mul_of_nonneg_right h (by positivity)
  have := roundHalfEven_le_of_le m (q * 10 ^ n) hle
  calc (roundHalfEven (q * 10 ^ n) : ℚ) ≤ (m : ℚ) := by exact_mod_cast this
    _ = b * 10 ^ n := hm

/-! ### Helper lemmas about the profile table -/

lemma get_cell_specs_cases (ct : String) :
    get_cell_specs ct = lfpSpecs ∨ get_cell_specs ct = nmcSpecs ∨
    get_cell_specs ct = lcoSpecs ∨ get_cell_specs ct = lmoSpecs := by
  unfold get_cell_specs
  split <;> simp

lemma specs_bounds (ct : String) :
    (get_cell_specs ct).min_voltage ≤ (get_cell_specs ct).max_voltage ∧
    (∃ a : ℤ, (a : ℚ) = (get_cell_specs ct).min_voltage * 10 ^ 2) ∧
    (∃ b : ℤ, (b : ℚ) = (get_cell_specs ct).max_voltage * 10 ^ 2) := by
  rcases get_cell_specs_cases ct with h | h | h | h <;> rw [h]
  · exact ⟨by norm_num [lfpSpecs], ⟨280, by norm_num [lfpSpecs]⟩,
      ⟨360, by norm_num [lfpSpecs]⟩⟩
  · exact ⟨by norm_num [nmcSpecs], ⟨320, by norm_num [nmcSpecs]⟩,
      ⟨400, by norm_num [nmcSpecs]⟩⟩
  · exact ⟨by norm_num [lcoSpecs], ⟨300, by norm_num [lcoSpecs]⟩,
      ⟨420, by norm_num [lcoSpecs]⟩⟩
  · exact ⟨by norm_num [lmoSpecs], ⟨320, by norm_num [lmoSpecs]⟩,
      ⟨430, by norm_num [lmoSpecs]⟩⟩

/-! ### Claim theorems -/

/-- The reading of the C1 scenario: LFP bounds, voltage 2.90, temp 30. -/
def lfpScenarioReading : CellReading where
  voltage := 2.90
  current := 0
  temp := 30
  capacity := 0
  min_voltage := 2.8
  max_voltage := 3.6
  color := "#2E8B57"

/-- C1 counterexample: for the LFP bounds (min 2.8, max 3.6), voltage 2.90
and temperature 30, the classifier does NOT return warning (the critical
branch fires first, since `2.90 < 2.8 * 1.05 = 2.94`). -/
theorem lfp_290_not_warning :
    (get_cell_status lfpScenarioReading).1 ≠ "warning" := by
  norm_num [get_cell_status, lfpScenarioReading]
  decide

/-- C1 (amended): for the LFP bounds (min 2.8, max 3.6), voltage 2.90 and
temperature 30, the classifier returns critical. -/
theorem lfp_290_critical :
    (get_cell_status lfpScenarioReading).1 = "critical" := by
  norm_num [get_cell_status, lfpScenarioReading]

/-- The reading of the C7 scenario: NMC bounds, voltage 3.6, temp 30. -/
def nmcScenarioReading : CellReading where
  voltage := 3.6
  current := 0
  temp := 30
  capacity := 0
  min_voltage := 3.2
  max_voltage := 4.0
  color := "#4169E1"

/-- C7: for the NMC bounds (min 3.2, max 4.0), voltage exactly 3.6 and
temperature 30, the classifier returns normal; the strict comparison
`3.6 > 4.0 * 0.9 = 3.6` does not fire. -/
theorem nmc_midband_normal :
    (get_cell_status nmcScenarioReading).1 = "normal" ∧
    ¬ ((3.6 : ℚ) > (4.0 : ℚ) * 0.9) := by
  constructor
  · norm_num [get_cell_status, nmcScenarioReading]
  · norm_num

/-- C9: each of the four profile table entries satisfies
`minVoltage < nominalVoltage < maxVoltage`. -/
theorem profile_table_invariant :
    ((get_cell_specs "lfp").min_voltage < (get_cell_specs "lfp").voltage ∧
      (get_cell_specs "lfp").voltage < (get_cell_specs "lfp").max_voltage) ∧
    ((get_cell_specs "nmc").min_voltage < (get_cell_specs "nmc").voltage ∧
      (get_cell_specs "nmc").voltage < (get_cell_specs "nmc").max_voltage) ∧
    ((get_cell_specs "lco").min_voltage < (get_cell_specs "lco").voltage ∧
      (get_cell_specs "lco").voltage < (get_cell_specs "lco").max_voltage) ∧
    ((get_cell_specs "lmo").min_voltage < (get_cell_specs "lmo").voltage ∧
      (get_cell_specs "lmo").voltage < (get_cell_specs "lmo").max_voltage) := by
  have h1 : get_cell_specs "lfp" = lfpSpecs := rfl
  have h2 : get_cell_specs "nmc" = nmcSpecs := rfl
  have h3 : get_cell_specs "lco" = lcoSpecs := rfl
  have h4 : get_cell_specs "lmo" = lmoSpecs := rfl
  rw [h1, h2, h3, h4]
  norm_num [lfpSpecs, nmcSpecs, lcoSpecs, lmoSpecs]

/-- C10: the generator never reads its `cell_id` argument: with the same
chemistry code and the same sampled random values, any two cell ids give the
identical reading. -/
theorem generator_ignores_cell_id (ct : String) (id1 id2 : ℕ)
    (vvar rc rt : ℚ) :
    generate_cell_data ct id1 vvar rc rt = generate_cell_data ct id2 vvar rc rt :=
  rfl

/-- C5: for every chemistry code (any string) and any sampled values, the
voltage field of the generated reading lies within the resolved profile's
`[minVoltage, maxVoltage]`, including after the final rounding to 2 decimal
places. -/
theorem generated_voltage_within_bounds (ct : String) (cid : ℕ)
    (vvar rc rt : ℚ) :
    (get_cell_specs ct).min_voltage ≤
      (generate_cell_data ct cid vvar rc rt).voltage ∧
    (generate_cell_data ct cid vvar rc rt).voltage ≤
      (get_cell_specs ct).max_voltage := by
  obtain ⟨hab, ⟨a, ha⟩, ⟨b, hb⟩⟩ := specs_bounds ct
  have hv : (generate_cell_data ct cid vvar rc rt).voltage =
      roundTo 2 (max (get_cell_specs ct).min_voltage
        (min (get_cell_specs ct).max_voltage
          ((get_cell_specs ct).voltage + vvar))) := rfl
  rw [hv]
  constructor
  · exact le_roundTo_of_le 2 _ _ a ha (le_max_left _ _)
  · exact roundTo_le_of_le 2 _ _ b hb (max_le hab (min_le_left _ _))

/-- C8: whenever the raw current sample lies in `[-5, 5]` and the raw
temperature sample lies in `[25, 45]` (the ranges `random.uniform` is called
with), the generated reading's current lies in `[-5, 5]` and is a multiple
of 0.01, and its temperature lies in `[25, 45]` and is a multiple of 0.1. -/
theorem generated_current_temp_in_range (ct : String) (cid : ℕ)
    (vvar rc rt : ℚ) (hc1 : -5.0 ≤ rc) (hc2 : rc ≤ 5.0)
    (ht1 : 25.0 ≤ rt) (ht2 : rt ≤ 45.0) :
    (-5.0 ≤ (generate_cell_data ct cid vvar rc rt).current ∧
      (generate_cell_data ct cid vvar rc rt).current ≤ 5.0 ∧
      ∃ m : ℤ, (generate_cell_data ct cid vvar rc rt).current = m / 100) ∧
    (25.0 ≤ (generate_cell_data ct cid vvar rc rt).temp ∧
      (generate_cell_data ct cid vvar rc rt).temp ≤ 45.0 ∧
      ∃ m : ℤ, (generate_cell_data ct cid vvar rc rt).temp = m / 10) := by
  have hcur : (generate_cell_data ct cid vvar rc rt).current = roundTo 2 rc := rfl
  have htmp : (generate_cell_data ct cid vvar rc rt).temp = roundTo 1 rt := rfl
  rw [hcur, htmp]
  refine ⟨⟨?_, ?_, ?_⟩, ?_, ?_, ?_⟩
  · exact le_roundTo_of_le 2 _ _ (-500) (by norm_num) hc1
  · exact roundTo_le_of_le 2 _ _ 500 (by norm_num) hc2
  · exact ⟨roundHalfEven (rc * 10 ^ 2), by unfold roundTo; norm_num⟩
  · exact le_roundTo_of_le 1 _ _ 250 (by norm_num) ht1
  · exact roundTo_le_of_le 1 _ _ 450 (by norm_num) ht2
  · exact ⟨roundHalfEven (rt * 10 ^ 1), by unfold roundTo; norm_num⟩

/-- Witness for C8 at the concrete sample `ct = "lfp"`, current 0, temp 30. -/
theorem generated_current_temp_in_range_witness :
    (-5.0 ≤ (generate_cell_data "lfp" 1 0 0 30).current ∧
      (generate_cell_data "lfp" 1 0 0 30).current ≤ 5.0 ∧
      ∃ m : ℤ, (generate_cell_data "lfp" 1 0 0 30).current = m / 100) ∧
    (25.0 ≤ (generate_cell_data "lfp" 1 0 0 30).temp ∧
      (generate_cell_data "lfp" 1 0 0 30).temp ≤ 45.0 ∧
      ∃ m : ℤ, (generate_cell_data "lfp" 1 0 0 30).temp = m / 10) :=
  generated_current_temp_in_range "lfp" 1 0 0 30 (by norm_num) (by norm_num)
    (by norm_num) (by norm_num)

/-- C3 counterexample: the generated capacity is computed from the clamped
voltage BEFORE its final rounding, so recomputing
`round(abs(voltage * current), 2)` from the returned (rounded) voltage field
gives a different value.  With the NMC profile, voltage variation 0.054
(within `[-0.1, 0.1]`), raw current 5 and raw temperature 30, the unrounded
voltage is 3.654, the returned voltage is 3.65, and the stored capacity is
`round(|3.654 * 5|, 2) = 18.27 ≠ 18.25 = round(|3.65 * 5|, 2)`. -/
theorem capacity_vs_rounded_voltage_cex :
    ((-0.1 : ℚ) ≤ 0.054 ∧ (0.054 : ℚ) ≤ 0.1 ∧ (-5.0 : ℚ) ≤ 5 ∧ (5 : ℚ) ≤ 5.0 ∧
      (25.0 : ℚ) ≤ 30 ∧ (30 : ℚ) ≤ 45.0) ∧
    (generate_cell_data "nmc" 1 0.054 5 30).capacity ≠
      roundTo 2 |(generate_cell_data "nmc" 1 0.054 5 30).voltage *
        (generate_cell_data "nmc" 1 0.054 5 30).current| := by
  have hspec : get_cell_specs "nmc" = nmcSpecs := rfl
  constructor
  · norm_num
  · simp only [generate_cell_data, hspec]
    norm_num [nmcSpecs, roundTo, roundHalfEven, Int.fract, abs_of_nonneg]

/-- C3 (amended): the generated capacity equals
`round(abs(v * current), 2)` where `v` is the clamped voltage before its
final rounding to 2 decimal places (not the returned voltage field), and the
capacity is always non-negative. -/
theorem capacity_from_unrounded_voltage_and_nonneg (ct : String) (cid : ℕ)
    (vvar rc rt : ℚ) :
    (generate_cell_data ct cid vvar rc rt).capacity =
      roundTo 2 |max (get_cell_specs ct).min_voltage
        (min (get_cell_specs ct).max_voltage ((get_cell_specs ct).voltage + vvar)) *
        (generate_cell_data ct cid vvar rc rt).current| ∧
    0 ≤ (generate_cell_data ct cid vvar rc rt).capacity := by
  constructor
  · rfl
  · have h : (generate_cell_data ct cid vvar rc rt).capacity =
        roundTo 2 |max (get_cell_specs ct).min_voltage
          (min (get_cell_specs ct).max_voltage ((get_cell_specs ct).voltage + vvar)) *
          roundTo 2 rc| := rfl
    rw [h]
    exact le_roundTo_of_le 2 _ _ 0 (by norm_num) (abs_nonneg _)

/-- C4: the classifier is total and returns exactly one of
normal/warning/critical; critical holds exactly on the critical condition
with multipliers 1.05/0.95 and temperature threshold 40, warning exactly
when critical fails and the warning condition (multipliers 1.10/0.90,
threshold 35) holds, normal otherwise; when both conditions hold the result
is critical. -/
theorem classifier_trichotomy_precedence (d : CellReading) :
    ((get_cell_status d).1 = "critical" ∨ (get_cell_status d).1 = "warning" ∨
      (get_cell_status d).1 = "normal") ∧
    ((get_cell_status d).1 = "critical" ↔
      (d.voltage < d.min_voltage * 1.05 ∨ d.voltage > d.max_voltage * 0.95 ∨
        d.temp > 40)) ∧
    ((get_cell_status d).1 = "warning" ↔
      (¬(d.voltage < d.min_voltage * 1.05 ∨ d.voltage > d.max_voltage * 0.95 ∨
          d.temp > 40) ∧
        (d.voltage < d.min_voltage * 1.1 ∨ d.voltage > d.max_voltage * 0.9 ∨
          d.temp > 35))) ∧
    ((get_cell_status d).1 = "normal" ↔
      (¬(d.voltage < d.min_voltage * 1.05 ∨ d.voltage > d.max_voltage * 0.95 ∨
          d.temp > 40) ∧
        ¬(d.voltage < d.min_voltage * 1.1 ∨ d.voltage > d.max_voltage * 0.9 ∨
          d.temp > 35))) ∧
    (((d.voltage < d.min_voltage * 1.05 ∨ d.voltage > d.max_voltage * 0.95 ∨
        d.temp > 40) ∧
      (d.voltage < d.min_voltage * 1.1 ∨ d.voltage > d.max_voltage * 0.9 ∨
        d.temp > 35)) → (get_cell_status d).1 = "critical") := by
  have hcw : ("critical" : String) ≠ "warning" := by decide
  have hcn : ("critical" : String) ≠ "normal" := by decide
  have hwn : ("warning" : String) ≠ "normal" := by decide
  by_cases hc : (d.voltage < d.min_voltage * 1.05 ∨
      d.voltage > d.max_voltage * 0.95 ∨ d.temp > 40)
  · have hs : (get_cell_status d).1 = "critical" := by
      unfold get_cell_status
      rw [if_pos hc]
    refine ⟨Or.inl hs, ⟨fun _ => hc, fun _ => hs⟩, ?_, ?_, fun _ => hs⟩
    · exact ⟨fun hw => absurd (hs.symm.trans hw) hcw,
        fun hp => absurd hc hp.1⟩
    · exact ⟨fun hn => absurd (hs.symm.trans hn) hcn,
        fun hp => absurd hc hp.1⟩
  · by_cases hw : (d.voltage < d.min_voltage * 1.1 ∨
        d.voltage > d.max_voltage * 0.9 ∨ d.temp > 35)
    · have hs : (get_cell_status d).1 = "warning" := by
        unfold get_cell_status
        rw [if_neg hc, if_pos hw]
      refine ⟨Or.inr (Or.inl hs), ?_, ⟨fun _ => ⟨hc, hw⟩, fun _ => hs⟩, ?_,
        fun hp => absurd hp.1 hc⟩
      · exact ⟨fun hcr => absurd (hcr.symm.trans hs) hcw, fun hp => absurd hp hc⟩
      · exact ⟨fun hn => absurd (hs.symm.trans hn) hwn,
          fun hp => absurd hw hp.2⟩
    · have hs : (get_cell_status d).1 = "normal" := by
        unfold get_cell_status
        rw [if_neg hc, if_neg hw]
      refine ⟨Or.inr (Or.inr hs), ?_, ?_, ⟨fun _ => ⟨hc, hw⟩, fun _ => hs⟩,
        fun hp => absurd hp.1 hc⟩
      · exact ⟨fun hcr => absurd (hcr.symm.trans hs) hcn, fun hp => absurd hp hc⟩
      · exact ⟨fun hwr => absurd (hwr.symm.trans hs) hwn,
          fun hp => absurd hp.2 hw⟩

/-- A reading where both the critical and the warning voltage conditions
hold (voltage far below the LFP minimum), used to witness C4. -/
def bothBandsReading : CellReading where
  voltage := 2.0
  current := 0
  temp := 30
  capacity := 0
  min_voltage := 2.8
  max_voltage := 3.6
  color := "#2E8B57"

/-- Witness for C4 at a concrete reading where both the critical and the
warning conditions hold: the classifier returns critical. -/
theorem classifier_trichotomy_precedence_witness :
    (get_cell_status bothBandsReading).1 = "critical" :=
  (classifier_trichotomy_precedence bothBandsReading).2.2.2.2
    ⟨Or.inl (by norm_num [bothBandsReading]),
      Or.inl (by norm_num [bothBandsReading])⟩

/-- C6: profile lookup is total and case-insensitive: every string whose
lowercasing is one of the four codes gets that code's profile, every other
string gets the NMC profile; in particular `"xyz"` and the uppercase codes
resolve as the claim states, and the NMC default is
(nominal 3.6, min 3.2, max 4.0). -/
theorem lookup_total_and_case_insensitive :
    (∀ s : String, pyLower s = "lfp" → get_cell_specs s = lfpSpecs) ∧
    (∀ s : String, pyLower s = "nmc" → get_cell_specs s = nmcSpecs) ∧
    (∀ s : String, pyLower s = "lco" → get_cell_specs s = lcoSpecs) ∧
    (∀ s : String, pyLower s = "lmo" → get_cell_specs s = lmoSpecs) ∧
    (∀ s : String, pyLower s ≠ "lfp" → pyLower s ≠ "nmc" → pyLower s ≠ "lco" →
      pyLower s ≠ "lmo" → get_cell_specs s = nmcSpecs) ∧
    (get_cell_specs "xyz" = nmcSpecs ∧ get_cell_specs "LFP" = lfpSpecs ∧
      get_cell_specs "NMC" = nmcSpecs ∧ get_cell_specs "LCO" = lcoSpecs ∧
      get_cell_specs "LMO" = lmoSpecs ∧ nmcSpecs.voltage = 3.6 ∧
      nmcSpecs.min_voltage = 3.2 ∧ nmcSpecs.max_voltage = 4.0) := by
  refine ⟨?_, ?_, ?_, ?_, ?_, rfl, rfl, rfl, rfl, rfl, by norm_num [nmcSpecs],
    by norm_num [nmcSpecs], by norm_num [nmcSpecs]⟩
  · intro s h
    unfold get_cell_specs
    rw [h]
    rfl
  · intro s h
    unfold get_cell_specs
    rw [h]
    rfl
  · intro s h
    unfold get_cell_specs
    rw [h]
    rfl
  · intro s h
    unfold get_cell_specs
    rw [h]
    rfl
  · intro s h1 h2 h3 h4
    unfold get_cell_specs
    split <;> simp_all

/-- Witness for C6: a mixed-case recognized code and an unrecognized code,
resolved by applying the lookup theorem at concrete strings. -/
theorem lookup_total_and_case_insensitive_witness :
    get_cell_specs "LfP" = lfpSpecs ∧ get_cell_specs "abc" = nmcSpecs :=
  ⟨lookup_total_and_case_insensitive.1 "LfP" (by decide),
    lookup_total_and_case_insensitive.2.2.2.2.1 "abc" (by decide) (by decide)
      (by decide) (by decide)⟩

/-- C2 counterexample: for chemistry code `"lco"` the console script's
reading is NOT produced by the dashboard generator's algorithm: its bounds
are the non-lfp defaults 3.2/4.0, while the generator resolves the LCO
profile bounds 3.0/4.2 — a difference independent of every random sample. -/
theorem p2_not_same_generation_cex :
    (p2_cell "lco" 30).min_voltage ≠
      (generate_cell_data "lco" 1 0 0 30).min_voltage ∧
    (p2_cell "lco" 30).max_voltage ≠
      (generate_cell_data "lco" 1 0 0 30).max_voltage ∧
    p2_cell "lco" 30 ≠ (generate_cell_data "lco" 1 0 0 30).dataFields := by
  have hspec : get_cell_specs "lco" = lcoSpecs := rfl
  have hne : ¬ ("lco" : String) = "lfp" := by decide
  have hmin : (p2_cell "lco" 30).min_voltage ≠
      (generate_cell_data "lco" 1 0 0 30).min_voltage := by
    simp only [p2_cell, generate_cell_data, hspec, if_neg hne]
    norm_num [lcoSpecs]
  refine ⟨hmin, ?_, fun heq => hmin (congrArg P2Reading.min_voltage heq)⟩
  simp only [p2_cell, generate_cell_data, hspec, if_neg hne]
  norm_num [lcoSpecs]

/-- C2 (amended): the console script's generation step is a simplification,
not the generator's algorithm: its current is always 0 and its capacity
always 0 (no uniform current sample, hence no `|V*I|` capacity), and it
resolves bounds only as lfp-versus-default, so for an (already lowercased)
code its bounds agree with the generator's resolved profile exactly when the
code is neither `"lco"` nor `"lmo"`. -/
theorem p2_generation_characterization (ct : String) (rt : ℚ)
    (h : pyLower ct = ct) :
    (p2_cell ct rt).current = 0 ∧ (p2_cell ct rt).capacity = 0 ∧
    (((p2_cell ct rt).min_voltage = (get_cell_specs ct).min_voltage ∧
      (p2_cell ct rt).max_voltage = (get_cell_specs ct).max_voltage) ↔
      (ct ≠ "lco" ∧ ct ≠ "lmo")) := by
  refine ⟨?_, ?_, ?_⟩
  · show (0.0 : ℚ) = 0
    norm_num
  · show roundTo 2 ((if ct = "lfp" then (3.2 : ℚ) else 3.6) * 0.0) = 0
    norm_num [roundTo, roundHalfEven]
  · have hb : (p2_cell ct rt).min_voltage = (if ct = "lfp" then (2.8 : ℚ) else 3.2) ∧
        (p2_cell ct rt).max_voltage = (if ct = "lfp" then (3.6 : ℚ) else 4.0) :=
      ⟨rfl, rfl⟩
    rw [hb.1, hb.2]
    by_cases h1 : ct = "lfp"
    · subst h1
      have hg : get_cell_specs "lfp" = lfpSpecs := rfl
      rw [hg, if_pos rfl, if_pos rfl]
      exact iff_of_true ⟨by norm_num [lfpSpecs], by norm_num [lfpSpecs]⟩
        ⟨by decide, by decide⟩
    · by_cases h2 : ct = "nmc"
      · subst h2
        have hg : get_cell_specs "nmc" = nmcSpecs := rfl
        rw [hg, if_neg h1, if_neg h1]
        exact iff_of_true ⟨by norm_num [nmcSpecs], by norm_num [nmcSpecs]⟩
          ⟨by decide, by decide⟩
      · by_cases h3 : ct = "lco"
        · subst h3
          have hg : get_cell_specs "lco" = lcoSpecs := rfl
          rw [hg, if_neg h1, if_neg h1]
          refine iff_of_false ?_ ?_
          · rintro ⟨hmin, -⟩
            exact absurd hmin (by norm_num [lcoSpecs])
          · rintro ⟨hne, -⟩
            exact hne rfl
        · by_cases h4 : ct = "lmo"
          · subst h4
            have hg : get_cell_specs "lmo" = lmoSpecs := rfl
            rw [hg, if_neg h1, if_neg h1]
            refine iff_of_false ?_ ?_
            · rintro ⟨-, hmax⟩
              exact absurd hmax (by norm_num [lmoSpecs])
            · rintro ⟨-, hne⟩
              exact hne rfl
          · have hg : get_cell_specs ct = nmcSpecs := by
              unfold get_cell_specs
              rw [h]
              split <;> simp_all
            rw [hg, if_neg h1, if_neg h1]
            exact iff_of_true ⟨by norm_num [nmcSpecs], by norm_num [nmcSpecs]⟩
              ⟨h3, h4⟩

/-- Witness for C2's amended theorem at the concrete code `"lco"`: the
current and capacity are fixed at 0 and the bounds do NOT agree with the
generator's resolved LCO profile. -/
theorem p2_generation_characterization_witness :
    (p2_cell "lco" 30).current = 0 ∧ (p2_cell "lco" 30).capacity = 0 ∧
    (((p2_cell "lco" 30).min_voltage = (get_cell_specs "lco").min_voltage ∧
      (p2_cell "lco" 30).max_voltage = (get_cell_specs "lco").max_voltage) ↔
      (("lco" : String) ≠ "lco" ∧ ("lco" : String) ≠ "lmo")) :=
  p2_generation_characterization "lco" 30 (by decide)
